import Mathlib

/-!
Verification of the schema normalization and filtering pipeline of
`streamlit_model_gallery.py`, shallowly embedded in Lean.

The script loads a CSV into a pandas DataFrame, strips and lowercases the
column names, renames known synonym columns onto a canonical schema,
validates that seven required columns are present, filters rows by three
categorical columns, and renders one selected row.

The embedding below models a DataFrame as a list of column names plus a
row-major cell matrix (renaming column labels does not touch the data, as
in pandas).  A raised, uncaught Python exception is modelled as
`Except.error`; `st.error` followed by `st.stop` (which halts the script)
is likewise modelled as `Except.error`.
-/

deriving instance DecidableEq for Except

namespace ModelGallery

/-- A pandas DataFrame: column labels plus a row-major cell matrix.
Cell values are strings (the registry columns are all string-typed);
an empty CSV cell is the empty string. -/
structure DF where
  cols : List String
  rows : List (List String)
deriving DecidableEq, Repr

/-- The whitespace characters removed by Python `str.strip()`
(the ones that can occur in a CSV header cell). -/
def isSpaceChar (c : Char) : Bool :=
  c == ' ' || c == '\t' || c == '\n' || c == '\r'

/-- Python `str.lower()` on one character (ASCII case folding). -/
def asciiLower (c : Char) : Char :=
  if c.toNat ≥ 65 ∧ c.toNat ≤ 90 then Char.ofNat (c.toNat + 32) else c

/-- Python `str.strip()` on a character list. -/
def stripChars (l : List Char) : List Char :=
  ((l.dropWhile isSpaceChar).reverse.dropWhile isSpaceChar).reverse

/-- `df.columns.str.strip().str.lower()` applied to one column name
(source line 18). -/
def normalizeCol (s : String) : String :=
  String.mk ((stripChars s.data).map asciiLower)

/-- The literal `column_map` dict of `load_data` (source lines 21-35). -/
def column_map : List (String × String) :=
  [("model_name", "model_name"),
   ("name", "model_name"),
   ("domain", "domain"),
   ("model_stage", "model_stage"),
   ("type", "model_stage"),
   ("owner_team", "owner_team"),
   ("contributor", "owner_team"),
   ("last_retrained_date", "last_retrained_date"),
   ("sla_tier", "sla_tier"),
   ("monitoring_status", "monitoring_status"),
   ("approval_status", "approval_status"),
   ("inference_endpoint_id", "inference_endpoint_id"),
   ("feature_store_dependency", "feature_store_dependency")]

/-- The literal `required_cols` list of `load_data` (source lines 41-44). -/
def required_cols : List String :=
  ["model_name", "domain", "model_stage", "owner_team",
   "sla_tier", "monitoring_status", "approval_status"]

/-- The canonical target-schema field names: the values of `column_map`. -/
def target_schema_fields : List String :=
  ["model_name", "domain", "model_stage", "owner_team", "last_retrained_date",
   "sla_tier", "monitoring_status", "approval_status", "inference_endpoint_id",
   "feature_store_dependency"]

/-- `{k: v for k, v in column_map.items() if k in df.columns}`
(source line 38): the rename dict restricted to columns actually present. -/
def renameDict (cols : List String) : List (String × String) :=
  column_map.filter (fun kv => cols.contains kv.1)

/-- `df.rename(columns=...)` (source line 38): each column label is sent
through the restricted dict, defaulting to itself. -/
def renameCols (cols : List String) : List String :=
  cols.map (fun c => ((renameDict cols).lookup c).getD c)

/-- The column labels of the DataFrame after line 18 (strip + lowercase)
and line 38 (synonym rename). -/
def finalCols (df : DF) : List String :=
  renameCols (df.cols.map normalizeCol)

/-- `[c for c in required_cols if c not in df.columns]` (source line 46). -/
def missingOf (df : DF) : List String :=
  required_cols.filter (fun c => !((finalCols df).contains c))

inductive LoadError where
  /-- `pd.read_csv` raised (file missing / parse failure); the script has
  no `try`/`except`, so the exception propagates uncaught. -/
  | sourceUnreadable : LoadError
  /-- `st.error(f"Missing required columns in CSV: {missing}")` then
  `st.stop()` (source lines 47-49); carries the missing list. -/
  | missingRequiredColumns : List String → LoadError
deriving DecidableEq, Repr

/-- `pd.read_csv(...)` (source line 15).  The input source is `none` when
the file is missing or unparsable, in which case pandas raises. -/
def read_csv : Option DF → Except LoadError DF
  | none => .error .sourceUnreadable
  | some df => .ok df

/-- `load_data` (source lines 14-51): read, normalize column names,
rename synonyms, validate required columns, return the DataFrame. -/
def load_data (source : Option DF) : Except LoadError DF :=
  match read_csv source with
  | .error e => .error e
  | .ok df =>
    if (missingOf df).isEmpty then
      .ok { cols := finalCols df, rows := df.rows }
    else
      .error (.missingRequiredColumns (missingOf df))

/-- `row['c']` on a row of a DataFrame with column labels `cols`:
the cell at the first column labelled `c`, or `none` (KeyError). -/
def rowCell (cols : List String) (r : List String) (c : String) : Option String :=
  match cols.findIdx? (fun x => x == c) with
  | some i => r.get? i
  | none => none

/-- `df["c"].isin(allowed)` evaluated at one row (source lines 80-82). -/
def cellIn (cols : List String) (r : List String) (c : String)
    (allowed : List String) : Bool :=
  match rowCell cols r c with
  | some v => allowed.contains v
  | none => false

/-- `filtered_df` (source lines 79-83): keep the rows whose `domain`,
`model_stage` and `sla_tier` cells are each in the corresponding
multiselect list (conjunction of the three boolean masks). -/
def filtered_df (df : DF) (domain_filter stage_filter sla_filter : List String) : DF :=
  { cols := df.cols,
    rows := df.rows.filter (fun r =>
      cellIn df.cols r "domain" domain_filter &&
      cellIn df.cols r "model_stage" stage_filter &&
      cellIn df.cols r "sla_tier" sla_filter) }

inductive UIError where
  /-- `st.error("'name' column missing...")` + `st.stop()` (lines 108-110). -/
  | nameColumnMissing : UIError
  /-- `.iloc[0]` on an empty selection raises IndexError (line 117). -/
  | indexError : UIError
deriving DecidableEq, Repr

/-- The model-explorer lookup (source lines 108-117): guard on the
presence of a `name` column, then
`filtered_df[filtered_df.name == selected_model].iloc[0]`. -/
def model_row (view : DF) (selected_model : String) : Except UIError (List String) :=
  if view.cols.contains "name" then
    match (view.rows.filter
        (fun r => rowCell view.cols r "name" == some selected_model)).head? with
    | some r => .ok r
    | none => .error .indexError
  else
    .error .nameColumnMissing

/-- The fields read by the detail pane with plain indexing, in source
order (lines 122-127): `model_row['name']`, `model_row['domain']`,
`model_row['model_owner_team']`, `model_row['model_stage']`,
`model_row['monitoring_status']`, `model_row['approval_status']`.
(The right column uses `.get` with a default and cannot raise.) -/
def detail_fields : List String :=
  ["name", "domain", "model_owner_team", "model_stage",
   "monitoring_status", "approval_status"]

/-- Sequentially read a list of fields from a row; the first missing
key raises KeyError (modelled as `Except.error` carrying the key). -/
def readFields (cols r : List String) : List String → Except String (List String)
  | [] => .ok []
  | k :: ks =>
    match rowCell cols r k with
    | some v => (readFields cols r ks).map (v :: ·)
    | none => .error k

/-- The detail pane of the explorer (source lines 121-127). -/
def render_detail (cols r : List String) : Except String (List String) :=
  readFields cols r detail_fields

/-- Per-column characterization of the rename step: a (normalized)
column name is sent to its canonical name when it is a key of
`column_map`, and passes through unchanged otherwise. -/
def canonOf (c : String) : String :=
  (column_map.lookup c).getD c

/-! ### Concrete inputs used to instantiate the theorems -/

/-- A CSV whose header is already the canonical schema, one record. -/
def c2Row : List String :=
  ["credit_risk_pd", "Banking", "prod", "risk_analytics", "gold", "Healthy", "approved"]

def c2Input : DF := { cols := required_cols, rows := [c2Row] }

/-- What `load_data` returns on `c2Input` (canonical names map to
themselves, so the table is unchanged). -/
def c2Reg : DF := c2Input

/-- A CSV lacking both `owner_team` and `contributor`. -/
def c3Input : DF :=
  { cols := ["model_name", "domain", "model_stage",
             "sla_tier", "monitoring_status", "approval_status"],
    rows := [["m1", "Banking", "prod", "gold", "Healthy", "approved"]] }

/-- A record whose `owner_team` cell is empty. -/
def c4Row : List String :=
  ["m1", "Banking", "prod", "", "gold", "Healthy", "approved"]

def c4Input : DF := { cols := required_cols, rows := [c4Row] }

def c4Reg : DF := c4Input

/-- A CSV with the seven required columns plus an unrecognized one. -/
def c5Input : DF :=
  { cols := required_cols ++ ["notes"],
    rows := [["m1", "Banking", "prod", "team_a", "gold", "Healthy", "approved", "hello"]] }

def c5Reg : DF := c5Input

/-- A 3-record registry spanning three domains, for the filter scenarios. -/
def g3Reg : DF :=
  { cols := required_cols,
    rows := [["credit_risk_pd", "Banking", "prod", "risk", "gold", "Healthy", "approved"],
             ["churn_model", "Retail", "canary", "growth", "silver", "Drift detected", "pending"],
             ["fraud_detect", "Payments", "prod", "fraud", "gold", "Healthy", "approved"]] }

/-- The mixed-case / synonym header of the C7 scenario. -/
def c7Input : DF :=
  { cols := ["Name", "Domain", "Type", "Contributor",
             "SLA_Tier", "Monitoring_Status", "Approval_Status"],
    rows := [["m1", "Banking", "prod", "team_a", "gold", "Healthy", "approved"]] }

/-- A CSV with an extra raw column `Model_Owner_Team`: not literally
`model_owner_team`, but normalizing to it. -/
def c8Row : List String :=
  ["m1", "Banking", "prod", "team_a", "gold", "Healthy", "approved", "platform_team"]

def c8Input : DF := { cols := required_cols ++ ["Model_Owner_Team"], rows := [c8Row] }

def c8Reg : DF := { cols := required_cols ++ ["model_owner_team"], rows := [c8Row] }

/-- A canonical-schema CSV with no column normalizing to
`model_owner_team`, one record. -/
def c8GoodRow : List String :=
  ["m2", "Retail", "canary", "growth", "silver", "Healthy", "pending"]

def c8GoodInput : DF := { cols := required_cols, rows := [c8GoodRow] }

def c8GoodReg : DF := c8GoodInput

/-! ### Helper lemmas -/

theorem mem_of_lookup_eq_some {l : List (String × String)} {k v : String}
    (h : l.lookup k = some v) : (k, v) ∈ l := by
  induction l with
  | nil => simp at h
  | cons p t ih =>
    obtain ⟨a, b⟩ := p
    rw [List.lookup_cons] at h
    cases hk : (k == a) with
    | false =>
      rw [hk] at h
      exact List.mem_cons_of_mem _ (ih h)
    | true =>
      rw [hk] at h
      cases h
      have hka : k = a := by simpa using hk
      subst hka
      exact List.mem_cons_self _ _

theorem lookup_filter_of_pos {l : List (String × String)} {p : String → Bool}
    {c : String} (hc : p c = true) :
    (l.filter (fun kv => p kv.1)).lookup c = l.lookup c := by
  induction l with
  | nil => simp
  | cons kv t ih =>
    obtain ⟨a, b⟩ := kv
    cases hpa : p a with
    | true =>
      rw [List.filter_cons_of_pos (by simpa using hpa), List.lookup_cons,
        List.lookup_cons]
      cases hk : (c == a) <;> simp [ih]
    | false =>
      rw [List.filter_cons_of_neg (by simpa using hpa), List.lookup_cons]
      cases hk : (c == a) with
      | false => exact ih
      | true =>
        have hca : c = a := by simpa using hk
        subst hca
        rw [hpa] at hc
        exact Bool.noConfusion hc

theorem renameEntry_of_mem {cols : List String} {c : String} (hc : c ∈ cols) :
    ((renameDict cols).lookup c).getD c = canonOf c := by
  unfold renameDict canonOf
  rw [lookup_filter_of_pos (by simpa using hc)]

theorem finalCols_eq (df : DF) :
    finalCols df = (df.cols.map normalizeCol).map canonOf := by
  unfold finalCols renameCols
  exact List.map_congr_left (fun c hc => renameEntry_of_mem hc)

theorem lookup_column_map_value {k v : String}
    (h : column_map.lookup k = some v) : v ∈ target_schema_fields :=
  (by decide : ∀ p ∈ column_map, p.2 ∈ target_schema_fields)
    _ (mem_of_lookup_eq_some h)

theorem canonOf_ne_name (n : String) : canonOf n ≠ "name" := by
  unfold canonOf
  cases h : column_map.lookup n with
  | none =>
    simp only [Option.getD_none]
    intro hn
    subst hn
    rw [(by decide : column_map.lookup "name" = some "model_name")] at h
    cases h
  | some v =>
    simp only [Option.getD_some]
    intro hv
    subst hv
    exact absurd (lookup_column_map_value h) (by decide)

theorem canonOf_eq_owner_key {n : String}
    (h : canonOf n = "model_owner_team") : n = "model_owner_team" := by
  unfold canonOf at h
  cases hl : column_map.lookup n with
  | none => rw [hl] at h; simpa using h
  | some v =>
    rw [hl] at h
    simp only [Option.getD_some] at h
    subst h
    exact absurd (lookup_column_map_value hl) (by decide)

theorem name_not_in_finalCols (df : DF) : "name" ∉ finalCols df := by
  rw [finalCols_eq]
  intro hmem
  rw [List.mem_map] at hmem
  obtain ⟨c, -, hc⟩ := hmem
  exact canonOf_ne_name _ hc

theorem owner_key_not_in_finalCols (df : DF)
    (h : ∀ c ∈ df.cols, normalizeCol c ≠ "model_owner_team") :
    "model_owner_team" ∉ finalCols df := by
  rw [finalCols_eq]
  intro hmem
  rw [List.mem_map] at hmem
  obtain ⟨n, hn, hcanon⟩ := hmem
  rw [List.mem_map] at hn
  obtain ⟨c, hc, rfl⟩ := hn
  exact h c hc (canonOf_eq_owner_key hcanon)

theorem mem_missingOf {src : DF} {c : String} :
    c ∈ missingOf src ↔ c ∈ required_cols ∧ c ∉ finalCols src := by
  unfold missingOf
  simp [List.mem_filter]

theorem load_ok_spec {src reg : DF} (h : load_data (some src) = Except.ok reg) :
    reg.cols = finalCols src ∧ reg.rows = src.rows ∧ missingOf src = [] := by
  simp only [load_data, read_csv] at h
  by_cases hm : (missingOf src).isEmpty = true
  · rw [if_pos hm] at h
    cases h
    exact ⟨rfl, rfl, List.isEmpty_iff.mp hm⟩
  · rw [if_neg hm] at h
    cases h

theorem load_error_spec {src : DF} (h : missingOf src ≠ []) :
    load_data (some src) =
      Except.error (LoadError.missingRequiredColumns (missingOf src)) := by
  simp only [load_data, read_csv]
  rw [if_neg]
  simpa [List.isEmpty_iff] using h

theorem required_mem_of_missing_nil {src : DF} (h : missingOf src = []) :
    ∀ c ∈ required_cols, c ∈ finalCols src := by
  intro c hc
  by_contra hnc
  have : c ∈ missingOf src := mem_missingOf.mpr ⟨hc, hnc⟩
  rw [h] at this
  cases this

theorem rowCell_eq_none_of_not_mem {cols r : List String} {c : String}
    (h : c ∉ cols) : rowCell cols r c = none := by
  unfold rowCell
  have hidx : cols.findIdx? (fun x => x == c) = none := by
    rw [List.findIdx?_eq_none_iff]
    intro x hx
    simp only [beq_eq_false_iff_ne]
    exact fun hxc => h (hxc ▸ hx)
  rw [hidx]

theorem cellIn_nil (cols r : List String) (c : String) :
    cellIn cols r c [] = false := by
  unfold cellIn
  cases rowCell cols r c <;> simp

theorem cellIn_mono {cols r : List String} {c : String} {a1 a2 : List String}
    (hsub : a1 ⊆ a2) (h : cellIn cols r c a1 = true) :
    cellIn cols r c a2 = true := by
  unfold cellIn at h ⊢
  cases hc : rowCell cols r c with
  | none => rw [hc] at h; simp at h
  | some v =>
    rw [hc] at h
    simp only [List.elem_eq_mem, decide_eq_true_eq] at h ⊢
    exact hsub h

theorem readFields_error_of_missing {cols r : List String} {k : String}
    {ks : List String} (hk : k ∈ ks) (hcell : rowCell cols r k = none) :
    ∃ e, readFields cols r ks = Except.error e := by
  induction ks with
  | nil => cases hk
  | cons a t ih =>
    unfold readFields
    cases ha : rowCell cols r a with
    | none => exact ⟨a, rfl⟩
    | some v =>
      rcases List.mem_cons.mp hk with rfl | hk2
      · rw [ha] at hcell; cases hcell
      · obtain ⟨e, he⟩ := ih hk2
        rw [he]
        exact ⟨e, rfl⟩

/-! ### Claim theorems -/

/-- C1 counterexample: the claim says an unreadable source (file missing
or unparsable) makes the loader return a built-in 3-record demo Registry
with no error.  The code has no such fallback: `pd.read_csv` is called
with no `try`/`except`, so nothing is returned at all when the source is
unreadable. -/
theorem c1_counterexample : ¬ ∃ reg : DF, load_data none = Except.ok reg := by
  rintro ⟨reg, h⟩
  simp [load_data, read_csv] at h

/-- C1 (amended): when the input source is entirely unreadable, the load
fails with the propagated read error; there is no demo-Registry fallback
and the error is not recovered. -/
theorem c1_unreadable_source_fails :
    load_data none = Except.error LoadError.sourceUnreadable := rfl

/-- C2 (code bug): the claim describes the intended lookup — the first
record of the filtered view whose `model_name` equals the selection,
never returning stale data.  The code instead consults a column literally
named `name`, which the normalization step can never produce (a raw
`name` column is always renamed to `model_name`), so for every Registry
the loader can return, the explorer's guard halts with the
column-missing error and the lookup is never performed. -/
theorem c2_lookup_dead_code (src reg : DF)
    (h : load_data (some src) = Except.ok reg)
    (d s t : List String) (sel : String) :
    "name" ∉ reg.cols ∧
      model_row (filtered_df reg d s t) sel =
        Except.error UIError.nameColumnMissing := by
  obtain ⟨hcols, -, -⟩ := load_ok_spec h
  have hname : "name" ∉ reg.cols := by
    rw [hcols]; exact name_not_in_finalCols src
  refine ⟨hname, ?_⟩
  unfold model_row
  rw [if_neg]
  simpa [filtered_df] using hname

/-- C2 witness: on a concrete canonical CSV the explorer halts with the
column-missing error instead of looking up the selected model. -/
theorem c2_lookup_dead_code_witness :
    "name" ∉ c2Reg.cols ∧
      model_row (filtered_df c2Reg ["Banking"] ["prod"] ["gold"])
          "credit_risk_pd" = Except.error UIError.nameColumnMissing :=
  c2_lookup_dead_code c2Input c2Reg (by decide) ["Banking"] ["prod"] ["gold"]
    "credit_risk_pd"

/-- C3: an input lacking (after normalization and renaming) at least one
required canonical field fails with an error carrying exactly the list
of missing canonical names, and the load halts (`st.stop`), producing no
table. -/
theorem c3_missing_required_columns (src : DF)
    (h : ∃ c ∈ required_cols, c ∉ finalCols src) :
    ∃ m, load_data (some src) =
        Except.error (LoadError.missingRequiredColumns m) ∧
      m ≠ [] ∧ (∀ c, c ∈ m ↔ c ∈ required_cols ∧ c ∉ finalCols src) := by
  obtain ⟨c, hc, hnc⟩ := h
  have hcm : c ∈ missingOf src := mem_missingOf.mpr ⟨hc, hnc⟩
  have hne : missingOf src ≠ [] := by
    intro hnil
    rw [hnil] at hcm
    cases hcm
  exact ⟨missingOf src, load_error_spec hne, hne, fun _ => mem_missingOf⟩

/-- C3 witness: a CSV with no `owner_team`/`contributor` column at all
fails with missing list exactly `["owner_team"]`. -/
theorem c3_missing_required_columns_witness :
    load_data (some c3Input) =
        Except.error (LoadError.missingRequiredColumns ["owner_team"]) ∧
      ∃ m, load_data (some c3Input) =
          Except.error (LoadError.missingRequiredColumns m) ∧
        m ≠ [] ∧ (∀ c, c ∈ m ↔ c ∈ required_cols ∧ c ∉ finalCols c3Input) :=
  ⟨by decide, c3_missing_required_columns c3Input (by decide)⟩

/-- C4 counterexample: the claim says every record of a returned Registry
has non-empty values in all seven required fields.  The loader only
checks that the seven required columns exist; cell values are never
inspected, so a CSV whose `owner_team` cell is empty loads fine. -/
theorem c4_counterexample :
    ¬ (∀ (src reg : DF), load_data (some src) = Except.ok reg →
        ∀ r ∈ reg.rows, ∀ c ∈ required_cols,
          ∃ v, rowCell reg.cols r c = some v ∧ v ≠ "") := by
  intro hclaim
  obtain ⟨v, hv, hne⟩ :=
    hclaim c4Input c4Reg (by decide) c4Row (by decide) "owner_team" (by decide)
  rw [(by decide : rowCell c4Reg.cols c4Row "owner_team" = some "")] at hv
  exact hne (Option.some.inj hv.symm)

/-- C4 (amended): when the loader returns a Registry, all seven required
columns are present and the rows of the input are passed through
unchanged; cell values are not validated and may be empty. -/
theorem c4_required_columns_present (src reg : DF)
    (h : load_data (some src) = Except.ok reg) :
    (∀ c ∈ required_cols, c ∈ reg.cols) ∧ reg.rows = src.rows := by
  obtain ⟨hcols, hrows, hmiss⟩ := load_ok_spec h
  refine ⟨?_, hrows⟩
  intro c hc
  rw [hcols]
  exact required_mem_of_missing_nil hmiss c hc

/-- C4 witness: the amended statement evaluated on the CSV with an empty
`owner_team` cell. -/
theorem c4_required_columns_present_witness :
    (∀ c ∈ required_cols, c ∈ c4Reg.cols) ∧ c4Reg.rows = c4Input.rows :=
  c4_required_columns_present c4Input c4Reg (by decide)

/-- C5 counterexample: the claim says a successful load exposes canonical
field names only.  Unrecognized columns pass through the rename
untouched and unvalidated, so a CSV with an extra `notes` column loads
with `notes` still among the columns. -/
theorem c5_counterexample :
    ¬ (∀ (src reg : DF), load_data (some src) = Except.ok reg →
        reg.rows.length = src.rows.length ∧
          ∀ c ∈ reg.cols, c ∈ target_schema_fields) := by
  intro hclaim
  obtain ⟨-, hcols⟩ := hclaim c5Input c5Reg (by decide)
  exact absurd (hcols "notes" (by decide)) (by decide)

/-- C5 (amended): a successful load preserves the row count, exposes all
seven required canonical names, and every column is either a canonical
target-schema name or a normalized pass-through of an input column (so
synonym spellings never survive, but unrecognized columns do). -/
theorem c5_load_shape (src reg : DF)
    (h : load_data (some src) = Except.ok reg) :
    reg.rows.length = src.rows.length ∧
      (∀ c ∈ required_cols, c ∈ reg.cols) ∧
      (∀ c ∈ reg.cols,
        c ∈ target_schema_fields ∨ c ∈ src.cols.map normalizeCol) := by
  obtain ⟨hcols, hrows, hmiss⟩ := load_ok_spec h
  refine ⟨by rw [hrows], ?_, ?_⟩
  · intro c hc
    rw [hcols]
    exact required_mem_of_missing_nil hmiss c hc
  · intro c hc
    rw [hcols, finalCols_eq, List.mem_map] at hc
    obtain ⟨n, hn, rfl⟩ := hc
    unfold canonOf
    cases hl : column_map.lookup n with
    | none =>
      simp only [Option.getD_none]
      exact Or.inr hn
    | some v =>
      simp only [Option.getD_some]
      exact Or.inl (lookup_column_map_value hl)

/-- C5 witness: the amended statement evaluated on the CSV with the
extra `notes` column. -/
theorem c5_load_shape_witness :
    c5Reg.rows.length = c5Input.rows.length ∧
      (∀ c ∈ required_cols, c ∈ c5Reg.cols) ∧
      (∀ c ∈ c5Reg.cols,
        c ∈ target_schema_fields ∨ c ∈ c5Input.cols.map normalizeCol) :=
  c5_load_shape c5Input c5Reg (by decide)

/-- C6: filtering yields a new derived view — an ordered sub-sequence of
the registry's rows — containing exactly the rows whose `domain`,
`model_stage` and `sla_tier` cells are members of the corresponding
allowed sets (conjunction of the three), and an empty allowed set on any
criterion empties the result.  (The embedding is pure, so the input
Registry is untouched by construction.) -/
theorem c6_filter_exact (df : DF) (dsel ssel tsel : List String) :
    (filtered_df df dsel ssel tsel).cols = df.cols ∧
      (filtered_df df dsel ssel tsel).rows.Sublist df.rows ∧
      (∀ r ∈ df.rows, ∀ d s t,
        rowCell df.cols r "domain" = some d →
        rowCell df.cols r "model_stage" = some s →
        rowCell df.cols r "sla_tier" = some t →
        (r ∈ (filtered_df df dsel ssel tsel).rows ↔
          d ∈ dsel ∧ s ∈ ssel ∧ t ∈ tsel)) ∧
      ((dsel = [] ∨ ssel = [] ∨ tsel = []) →
        (filtered_df df dsel ssel tsel).rows = []) := by
  refine ⟨rfl, List.filter_sublist _, ?_, ?_⟩
  · intro r hr d s t hd hs ht
    simp only [filtered_df, List.mem_filter]
    unfold cellIn
    rw [hd, hs, ht]
    simp [hr, and_assoc]
  · intro hempty
    have hall : ∀ a ∈ df.rows,
        ¬ (cellIn df.cols a "domain" dsel &&
            cellIn df.cols a "model_stage" ssel &&
            cellIn df.cols a "sla_tier" tsel) = true := by
      intro a ha
      rcases hempty with rfl | rfl | rfl <;> simp [cellIn_nil]
    simpa [filtered_df] using List.filter_eq_nil_iff.mpr hall

/-- C6 witness: the spec's scenario — three records with domains
Banking, Retail, Payments; filtering to domains = Banking with all
stages and tiers allowed keeps exactly the one Banking record. -/
theorem c6_filter_exact_witness :
    ((filtered_df g3Reg ["Banking"] ["prod", "canary"] ["gold", "silver"]).rows =
        [["credit_risk_pd", "Banking", "prod", "risk", "gold", "Healthy", "approved"]]) ∧
      (["credit_risk_pd", "Banking", "prod", "risk", "gold", "Healthy", "approved"] ∈
          (filtered_df g3Reg ["Banking"] ["prod", "canary"] ["gold", "silver"]).rows ↔
        "Banking" ∈ ["Banking"] ∧ "prod" ∈ ["prod", "canary"] ∧
          "gold" ∈ ["gold", "silver"]) ∧
      (filtered_df g3Reg [] ["prod", "canary"] ["gold", "silver"]).rows = [] :=
  ⟨by decide,
    (c6_filter_exact g3Reg ["Banking"] ["prod", "canary"] ["gold", "silver"]).2.2.1
      _ (by decide) _ _ _ (by decide) (by decide) (by decide),
    (c6_filter_exact g3Reg [] ["prod", "canary"] ["gold", "silver"]).2.2.2
      (Or.inl rfl)⟩

/-- C7: column normalization strips and lowercases every raw name and
then renames it through the synonym table exactly when its normalized
form is a key of the table, leaving unrecognized names untouched; the
spec's mixed-case / synonym header loads successfully with the canonical
seven column names. -/
theorem c7_normalization :
    (∀ src : DF, finalCols src = (src.cols.map normalizeCol).map canonOf) ∧
      (∀ n, column_map.lookup n = none → canonOf n = n) ∧
      load_data (some c7Input) =
        Except.ok { cols := required_cols, rows := c7Input.rows } := by
  refine ⟨finalCols_eq, ?_, by decide⟩
  intro n h
  unfold canonOf
  rw [h, Option.getD_none]

/-- C7 witness: the characterization applied to the scenario header,
which normalizes and renames to exactly the seven canonical names. -/
theorem c7_normalization_witness :
    finalCols c7Input = (c7Input.cols.map normalizeCol).map canonOf ∧
      finalCols c7Input = required_cols :=
  ⟨c7_normalization.1 c7Input, by decide⟩

/-- C8 counterexample: the claim's hypothesis is that the input has no
raw column *literally* named `model_owner_team`.  A raw column
`Model_Owner_Team` is not literally that string, yet it normalizes to
`model_owner_team`, so the detail view's field access is defined and the
claimed missing-key failure does not occur. -/
theorem c8_counterexample :
    ¬ (∀ (src reg : DF), load_data (some src) = Except.ok reg →
        "model_owner_team" ∉ src.cols →
        ∀ r ∈ reg.rows, rowCell reg.cols r "model_owner_team" = none) := by
  intro hclaim
  have h := hclaim c8Input c8Reg (by decide) (by decide) c8Row (by decide)
  rw [(by decide :
    rowCell c8Reg.cols c8Row "model_owner_team" = some "platform_team")] at h
  cases h

/-- C8 (amended): for every Registry the loader produces from an input
none of whose raw column names normalizes (strip + lowercase) to
`model_owner_team`, the detail view's `model_owner_team` access has no
defined value — the synonym table never produces that name (the
canonical name is `owner_team`) — and rendering the detail view fails
with a missing-key error instead of displaying the owner team. -/
theorem c8_detail_view_missing_key (src reg : DF)
    (hload : load_data (some src) = Except.ok reg)
    (hno : ∀ c ∈ src.cols, normalizeCol c ≠ "model_owner_team") :
    ∀ r ∈ reg.rows,
      rowCell reg.cols r "model_owner_team" = none ∧
        ∃ k, render_detail reg.cols r = Except.error k := by
  obtain ⟨hcols, -, -⟩ := load_ok_spec hload
  intro r _
  have hnm : "model_owner_team" ∉ reg.cols := by
    rw [hcols]
    exact owner_key_not_in_finalCols src hno
  have hcell : rowCell reg.cols r "model_owner_team" = none :=
    rowCell_eq_none_of_not_mem hnm
  exact ⟨hcell, readFields_error_of_missing (by decide) hcell⟩

/-- C8 witness: the amended statement evaluated on a canonical-schema
CSV with no column normalizing to `model_owner_team`. -/
theorem c8_detail_view_missing_key_witness :
    rowCell c8GoodReg.cols c8GoodRow "model_owner_team" = none ∧
      ∃ k, render_detail c8GoodReg.cols c8GoodRow = Except.error k :=
  c8_detail_view_missing_key c8GoodInput c8GoodReg (by decide) (by decide)
    c8GoodRow (by decide)

/-- C9: filtering is idempotent — filtering an already-filtered view
with the same three allowed sets returns the same view (the same list of
records, hence the same set). -/
theorem c9_filter_idempotent (df : DF) (d s t : List String) :
    filtered_df (filtered_df df d s t) d s t = filtered_df df d s t := by
  unfold filtered_df
  simp [List.filter_filter]

/-- C9 witness: idempotence evaluated on the 3-record registry. -/
theorem c9_filter_idempotent_witness :
    filtered_df (filtered_df g3Reg ["Banking", "Retail"] ["prod"] ["gold"])
        ["Banking", "Retail"] ["prod"] ["gold"] =
      filtered_df g3Reg ["Banking", "Retail"] ["prod"] ["gold"] :=
  c9_filter_idempotent g3Reg ["Banking", "Retail"] ["prod"] ["gold"]

/-- C10: filtering is monotonic — enlarging each of the three allowed
sets can only enlarge the set of records in the result. -/
theorem c10_filter_monotone (df : DF) (d1 d2 s1 s2 t1 t2 : List String)
    (hd : d1 ⊆ d2) (hs : s1 ⊆ s2) (ht : t1 ⊆ t2) :
    (filtered_df df d1 s1 t1).rows ⊆ (filtered_df df d2 s2 t2).rows := by
  intro r hr
  simp only [filtered_df, List.mem_filter, Bool.and_eq_true] at hr ⊢
  obtain ⟨hmem, ⟨h1, h2⟩, h3⟩ := hr
  exact ⟨hmem, ⟨cellIn_mono hd h1, cellIn_mono hs h2⟩, cellIn_mono ht h3⟩

/-- C10 witness: monotonicity evaluated on the 3-record registry with
allowed sets enlarged from Banking to Banking + Payments. -/
theorem c10_filter_monotone_witness :
    (filtered_df g3Reg ["Banking"] ["prod"] ["gold"]).rows ⊆
      (filtered_df g3Reg ["Banking", "Payments"] ["prod", "canary"]
        ["gold", "silver"]).rows :=
  c10_filter_monotone g3Reg ["Banking"] ["Banking", "Payments"] ["prod"]
    ["prod", "canary"] ["gold"] ["gold", "silver"] (by decide) (by decide)
    (by decide)

end ModelGallery
